import Mathlib

/-!
Shallow embedding of `scripts/python_sdk/finfx_sdk.py` (class `FinFXSDK`).

Python values appearing in signal dictionaries are modelled by `Value`
(`None`, strings, numbers); Python dicts by association lists with
first-occurrence lookup and in-place replacement on assignment.  Machine
floats are modelled by `ℚ`: the only float operation in the source is the
comparison `lotSize < 0.1`, and for every IEEE-754 double `d` the Python
comparison `d < 0.1` (against the double nearest to 1/10) agrees with the
rational comparison `d < 1/10`, because no double lies between the real
1/10 and the double literal `0.1`.

Methods that may perform a network call return a `CallOutcome` (or
`BulkOutcome`): `reject` means the method returned `None` locally, before
reaching `_make_request`; `send` records the method/endpoint/body handed
to `_make_request`; `typeError` marks inputs on which the Python code
would raise (e.g. `.lower()` on a number, or ordering a string against
`0.1`) — all claims stay inside the typed fragment where this arm is
unreachable.  Mutation of caller-owned dictionaries is made observable by
returning the caller's structures alongside the outcome.
-/

namespace FinFX

/-- A Python value stored in a signal dictionary: `None`, a string, or a
number (ints and floats collapsed to `ℚ`, faithful for the comparisons the
source performs). -/
inductive Value where
  | vnone : Value
  | str : String → Value
  | num : ℚ → Value
  deriving DecidableEq, Repr

/-- Python truthiness of a `Value` (`None`, `""` and `0` are falsy). -/
def Value.truthy : Value → Bool
  | .vnone => false
  | .str s => s ≠ ""
  | .num q => q ≠ 0

/-- A Python dict with string keys, as an association list (keys unique in
practice; lookup takes the first occurrence). -/
abbrev Dict := List (String × Value)

/-- `d.get(k)` / `d[k]`: first value stored under `k`, if any. -/
def Dict.get : Dict → String → Option Value
  | [], _ => none
  | (k', v) :: rest, k => if k' = k then some v else Dict.get rest k

/-- `k in d`. -/
def Dict.hasKey (d : Dict) (k : String) : Bool :=
  (d.get k).isSome

/-- `d[k] = v`: replace the value under `k` in place (keeping key order),
appending when the key is new. -/
def Dict.set : Dict → String → Value → Dict
  | [], k, v => [(k, v)]
  | (k', v') :: rest, k, v =>
      if k' = k then (k, v) :: rest else (k', v') :: Dict.set rest k v

/-- `d.copy()`: a shallow copy; as a value it is the same association
list, but assignments to the copy are not assignments to the original. -/
def Dict.copy (d : Dict) : Dict := d

/-- Python `str.lower` (ASCII case mapping, which covers every string the
validation compares against). -/
def pyLower (s : String) : String :=
  String.mk (s.data.map Char.toLower)

/-- Python `str.upper` (ASCII case mapping). -/
def pyUpper (s : String) : String :=
  String.mk (s.data.map Char.toUpper)

/-- Outcome of `add_signal` / `update_signal`: local rejection (returned
`None` with no network call), a raised type error (outside the typed
fragment), or the request handed to `_make_request`. -/
inductive CallOutcome where
  | reject : CallOutcome
  | typeError : CallOutcome
  | send : String → String → Dict → CallOutcome
  deriving DecidableEq, Repr

/-- `add_signal`'s `required_fields` list (line 245). -/
def required_fields : List String :=
  ["entryTime", "entryPrice", "direction", "userId", "lotSize", "pairName"]

/-- The test `direction.lower() in ['long', 'short']`. -/
def directionAllowed (d : String) : Bool :=
  pyLower d = "long" ∨ pyLower d = "short"

/-- Result of the `lotSize < 0.1` guard: absent key passes (the guards at
lines 259 and 295 only fire when the key is present), a number is
compared, anything else raises. -/
inductive LotStep where
  | okL : LotStep
  | rejectL : LotStep
  | errL : LotStep
  deriving DecidableEq, Repr

/-- The float literal `0.1` of the lot-size guard, as the rational it
denotes (see the header note on floats). -/
def lotMin : ℚ := mkRat 1 10

/-- The guard `'lotSize' in d and d['lotSize'] < 0.1` (and line 259's
`d['lotSize'] < 0.1`, where presence is already guaranteed). -/
def lotStep (d : Dict) : LotStep :=
  match d.get "lotSize" with
  | none => .okL
  | some (.num q) => if q < lotMin then .rejectL else .okL
  | some _ => .errL

/-- `add_signal` (lines 219–268).  Returns the outcome together with the
caller's dictionary after the call: the source copies `signal_data` before
writing the uppercased direction, so the caller's dict is returned
unchanged. -/
def addSignal (signal_data : Dict) : CallOutcome × Dict :=
  if ¬ required_fields.all (fun f => (signal_data.get f).isSome) then
    (.reject, signal_data)
  else
    match signal_data.get "direction" with
    | none => (.reject, signal_data)
    | some dv =>
      if ¬ dv.truthy then (.reject, signal_data)
      else
        match dv with
        | .str d =>
          if ¬ directionAllowed d then (.reject, signal_data)
          else
            match lotStep signal_data with
            | .rejectL => (.reject, signal_data)
            | .errL => (.typeError, signal_data)
            | .okL =>
              let api_data :=
                (Dict.copy signal_data).set "direction"
                  (.str (pyUpper (pyLower d)))
              (.send "POST" "/api/signals" api_data, signal_data)
        | _ => (.typeError, signal_data)

/-- The direction block of `update_signal` (lines 285–292): build
`api_data` as a copy, and only when `'direction' in update_data` validate
it and write the uppercased form into the copy. -/
inductive DirStep where
  | okD : Dict → DirStep
  | rejectD : DirStep
  | errD : DirStep
  deriving DecidableEq, Repr

/-- Direction validation and normalization of `update_signal`. -/
def updateDirStep (update_data : Dict) : DirStep :=
  match update_data.get "direction" with
  | none => .okD (Dict.copy update_data)
  | some dv =>
    if ¬ dv.truthy then .rejectD
    else
      match dv with
      | .str d =>
        if ¬ directionAllowed d then .rejectD
        else .okD ((Dict.copy update_data).set "direction"
                     (.str (pyUpper (pyLower d))))
      | _ => .errD

/-- `update_signal` (lines 270–300), returning the outcome together with
the caller's dictionary after the call. -/
def updateSignal (signal_id : String) (update_data : Dict) :
    CallOutcome × Dict :=
  if signal_id = "" then (.reject, update_data)
  else
    match updateDirStep update_data with
    | .rejectD => (.reject, update_data)
    | .errD => (.typeError, update_data)
    | .okD api_data =>
      match lotStep update_data with
      | .rejectL => (.reject, update_data)
      | .errL => (.typeError, update_data)
      | .okL =>
        (.send "PUT" ("/api/signals/" ++ signal_id) api_data, update_data)

/-- `add_bulk_signals`' per-entry `required_fields` (line 349): `userId`
and `lotSize` are handled by the API. -/
def bulk_required_fields : List String :=
  ["entryTime", "entryPrice", "direction", "pairName"]

/-- Result of validating one bulk entry (loop body, lines 351–364):
failure returns `None` for the whole batch; success writes the uppercased
direction back into the entry itself (`signal['direction'] = ...`). -/
inductive EntryStep where
  | okE : Dict → EntryStep
  | failE : EntryStep
  | errE : EntryStep
  deriving DecidableEq, Repr

/-- One iteration of the bulk validation loop. -/
def processEntry (signal : Dict) : EntryStep :=
  if ¬ bulk_required_fields.all (fun f => (signal.get f).isSome) then .failE
  else
    match signal.get "direction" with
    | none => .failE
    | some dv =>
      if ¬ dv.truthy then .failE
      else
        match dv with
        | .str d =>
          if ¬ directionAllowed d then .failE
          else .okE (signal.set "direction" (.str (pyUpper (pyLower d))))
        | _ => .errE

/-- The entry a successful `processEntry` leaves in the caller's list:
the same dict with its direction uppercased in place. -/
def entryMutated (signal : Dict) : Dict :=
  match signal.get "direction" with
  | some (.str d) => signal.set "direction" (.str (pyUpper (pyLower d)))
  | _ => signal

/-- Result of the whole bulk validation loop, carrying the caller's list
as it stands when the loop stops (entries already processed are mutated,
the failing entry and everything after it are untouched). -/
inductive LoopRes where
  | allOk : List Dict → LoopRes
  | failedL : List Dict → LoopRes
  | raisedL : List Dict → LoopRes
  deriving DecidableEq, Repr

/-- The `for i, signal in enumerate(signals)` loop of `add_bulk_signals`. -/
def bulkLoop : List Dict → LoopRes
  | [] => .allOk []
  | s :: rest =>
    match processEntry s with
    | .failE => .failedL (s :: rest)
    | .errE => .raisedL (s :: rest)
    | .okE m =>
      match bulkLoop rest with
      | .allOk ms => .allOk (m :: ms)
      | .failedL l => .failedL (m :: l)
      | .raisedL l => .raisedL (m :: l)

/-- The body `{"botId": bot_id, "signals": signals}` POSTed to
`/api/signals/bulk`. -/
structure BulkBody where
  botId : String
  signals : List Dict
  deriving DecidableEq, Repr

/-- Outcome of `add_bulk_signals`. -/
inductive BulkOutcome where
  | rejectB : BulkOutcome
  | typeErrorB : BulkOutcome
  | sendB : BulkBody → BulkOutcome
  deriving DecidableEq, Repr

/-- `add_bulk_signals` (lines 329–372), returning the outcome together
with the caller's `signals` list after the call (its entries are the very
dicts the loop mutates). -/
def addBulkSignals (bot_id : String) (signals : List Dict) :
    BulkOutcome × List Dict :=
  if bot_id = "" then (.rejectB, signals)
  else if signals.isEmpty then (.rejectB, signals)
  else
    match bulkLoop signals with
    | .allOk ms => (.sendB ⟨bot_id, ms⟩, ms)
    | .failedL l => (.rejectB, l)
    | .raisedL l => (.typeErrorB, l)

/-! ### Authentication and request dispatch

Time is modelled in seconds as `Int` (`datetime.now()` becomes an explicit
`now` argument; `timedelta(minutes=5)` is `300`, `timedelta(days=7)` is
`604800`).  The network is an oracle supplied as an argument: each HTTP
interaction the code may perform is one field of an environment record. -/

/-- The in-memory token state of the client: `self.token` and
`self.token_expires_at` (`none` models Python `None`). -/
structure SDKState where
  token : Option String
  token_expires_at : Option Int
  deriving DecidableEq, Repr

/-- Python truthiness of `self.token` (a `datetime` is always truthy, an
empty or `None` token is falsy). -/
def tokenTruthy : Option String → Bool
  | none => false
  | some s => s ≠ ""

/-- The guard of `_ensure_authenticated` (lines 151–153): a token is
reused iff it is truthy, an expiry is set, and
`token_expires_at > now + 5 minutes`. -/
def tokenValid (st : SDKState) (now : Int) : Bool :=
  tokenTruthy st.token &&
    match st.token_expires_at with
    | some e => decide (now + 300 < e)
    | none => false

/-- Body of a login response: the value under `"token"`, when present and
a string (`data.get('token')`). -/
structure LoginBody where
  token : Option String
  deriving DecidableEq, Repr

/-- What one `POST /api/auth/login` can produce: a network/timeout error
(the `requests.post` call raised), or a status with a body (`none` body:
`response.json()` raised). -/
inductive LoginOutcome where
  | netErr : LoginOutcome
  | resp : Nat → Option LoginBody → LoginOutcome
  deriving DecidableEq, Repr

/-- The content `_save_token` writes: `{'token': ..., 'expires_at': ...}`. -/
structure TokenFile where
  token : Option String
  expires_at : Option Int
  deriving DecidableEq, Repr

/-- `_authenticate` (lines 105–141): returns the boolean result, the
client state after the call, and the token file written by `_save_token`
(if any).  The function is total — every failure path of the source
returns `False` rather than raising. -/
def authenticate (st : SDKState) (now : Int) (o : LoginOutcome) :
    Bool × SDKState × Option TokenFile :=
  match o with
  | .netErr => (false, st, none)
  | .resp status body =>
    if status = 200 then
      match body with
      | none => (false, st, none)
      | some b =>
        let st1 : SDKState := { st with token := b.token }
        if tokenTruthy st1.token then
          let st2 : SDKState :=
            { st1 with token_expires_at := some (now + 604800) }
          (true, st2, some ⟨st2.token, st2.token_expires_at⟩)
        else (false, st1, none)
    else (false, st, none)

/-- `_ensure_authenticated` (lines 143–156), instrumented with the number
of login (`_authenticate`) calls performed (0 or 1). -/
def ensureAuthenticated (st : SDKState) (now : Int) (o : LoginOutcome) :
    Bool × SDKState × Option TokenFile × Nat :=
  if tokenValid st now then (true, st, none, 0)
  else
    let (b, st', f) := authenticate st now o
    (b, st', f, 1)

/-- What one authenticated API call can produce: a network/timeout error
(the `requests.request` call raised), or a status with a parsed body
(`none` body: `response.json()` raised). -/
inductive ApiResp where
  | netErr : ApiResp
  | resp : Nat → Option Dict → ApiResp
  deriving DecidableEq, Repr

/-- The network oracle for one `_make_request` call: the login response
used by the initial `_ensure_authenticated` (if it logs in), the first
API response, and the login/API responses used by the 401 retry path (if
reached). -/
structure ReqEnv where
  login1 : LoginOutcome
  api1 : ApiResp
  login2 : LoginOutcome
  api2 : ApiResp
  deriving DecidableEq, Repr

/-- Observable trace of one `_make_request` call: the returned value, the
final client state, the bearer token attached to each API HTTP attempt in
order, and the number of login calls performed. -/
structure ReqTrace where
  result : Option Dict
  state : SDKState
  apiTokens : List (Option String)
  logins : Nat
  deriving DecidableEq, Repr

/-- `_make_request` (lines 158–217).  2xx returns the parsed body; 401
clears the in-memory token, re-authenticates and retries exactly once;
any other status, or a raised request, returns `None` with no retry. -/
def makeRequest (st : SDKState) (now : Int) (env : ReqEnv) : ReqTrace :=
  match ensureAuthenticated st now env.login1 with
  | (ok1, st1, _, n1) =>
    if ¬ ok1 then ⟨none, st1, [], n1⟩
    else
      match env.api1 with
      | .netErr => ⟨none, st1, [st1.token], n1⟩
      | .resp status body =>
        if status = 200 ∨ status = 201 then
          ⟨body, st1, [st1.token], n1⟩
        else if status = 401 then
          let stCleared : SDKState := ⟨none, none⟩
          match ensureAuthenticated stCleared now env.login2 with
          | (ok2, st2, _, n2) =>
            if ok2 then
              match env.api2 with
              | .netErr => ⟨none, st2, [st1.token, st2.token], n1 + n2⟩
              | .resp status2 body2 =>
                if status2 = 200 ∨ status2 = 201 then
                  ⟨body2, st2, [st1.token, st2.token], n1 + n2⟩
                else
                  ⟨none, st2, [st1.token, st2.token], n1 + n2⟩
            else ⟨none, st2, [st1.token], n1 + n2⟩
        else ⟨none, st1, [st1.token], n1⟩

/-! ### Token loading at construction -/

/-- What `_load_token` can find: no file, a file whose read or JSON parse
raises (including a truncated partial write), or parsed JSON data.  In the
parsed case `token` is the value under `'token'` and `expVal` describes
the value under `'expires_at'`. -/
inductive ExpVal where
  | falsy : ExpVal
  | badFormat : ExpVal
  | good : Int → ExpVal
  deriving DecidableEq, Repr

/-- Token-file content as `_load_token` sees it. -/
inductive FileContent where
  | missing : FileContent
  | unreadable : FileContent
  | jsonData : Option String → ExpVal → FileContent
  deriving DecidableEq, Repr

/-- `_load_token` (lines 67–90), run at construction on the initial state
`⟨none, none⟩`: the resulting in-memory token state.  Total — every
exception path of the source is caught and clears both fields. -/
def loadToken (content : FileContent) (now : Int) : SDKState :=
  match content with
  | .missing => ⟨none, none⟩
  | .unreadable => ⟨none, none⟩
  | .jsonData tok exp =>
    match exp with
    | .falsy => ⟨none, none⟩
    | .badFormat => ⟨none, none⟩
    | .good e =>
      if now + 300 < e then ⟨tok, some e⟩
      else ⟨none, none⟩

/-! ### Example inputs used by witnesses -/

/-- A fully valid example signal with a mixed-case direction. -/
def exSignal : Dict :=
  [("entryTime", .str "2024-01-15T10:30:00Z"), ("entryPrice", .num 50000),
   ("direction", .str "LoNg"), ("userId", .str "507f1f77bcf86cd799439011"),
   ("lotSize", .num 1), ("pairName", .str "BTC/USDT")]

/-- The body `add_signal` sends for `exSignal`. -/
def exSignalSent : Dict :=
  [("entryTime", .str "2024-01-15T10:30:00Z"), ("entryPrice", .num 50000),
   ("direction", .str "LONG"), ("userId", .str "507f1f77bcf86cd799439011"),
   ("lotSize", .num 1), ("pairName", .str "BTC/USDT")]

/-- A valid bulk entry used by the bulk witnesses. -/
def exBulkEntry : Dict :=
  [("entryTime", .str "2024-01-15T10:30:00Z"), ("entryPrice", .num 100),
   ("direction", .str "Short"), ("pairName", .str "EUR/USD")]

/-- A bulk entry missing `pairName`, used by the bulk witnesses. -/
def exBulkBad : Dict :=
  [("entryTime", .str "2024-01-16T10:30:00Z"), ("entryPrice", .num 101),
   ("direction", .str "long")]

/-- Network oracle for the C1 witness: the initial login yields `t1`,
the first call returns 401, the re-login yields `t2`, and the retry
returns 500. -/
def exEnv : ReqEnv :=
  ⟨.resp 200 (some ⟨some "t1"⟩), .resp 401 none,
   .resp 200 (some ⟨some "t2"⟩), .resp 500 none⟩

/-! ## Supporting lemmas -/

/-- Assignment stores exactly the assigned value under the key. -/
theorem get_set_self (d : Dict) (k : String) (v : Value) :
    (d.set k v).get k = some v := by
  induction d with
  | nil => simp [Dict.set, Dict.get]
  | cons p rest ih =>
    obtain ⟨k', v'⟩ := p
    by_cases h : k' = k
    · simp [Dict.set, h, Dict.get]
    · simp [Dict.set, h, Dict.get, ih]

/-- The modelled threshold is the rational one tenth. -/
theorem lotMin_eq : lotMin = 1 / 10 := by
  norm_num [lotMin, mkRat, Rat.normalize]

/-- An accepted direction string uppercases to exactly `LONG` or
`SHORT`. -/
theorem allowed_upper {d : String} (h : directionAllowed d = true) :
    pyUpper (pyLower d) = "LONG" ∨ pyUpper (pyLower d) = "SHORT" := by
  unfold directionAllowed at h
  rcases of_decide_eq_true h with h | h
  · left; rw [h]; decide
  · right; rw [h]; decide

/-- An accepted direction string is truthy. -/
theorem allowed_truthy {d : String} (h : directionAllowed d = true) :
    d ≠ "" := by
  rintro rfl
  exact absurd h (by decide)

/-! ## Claims -/

/-- **C10.** `add_signal` and `update_signal` never modify the caller's
input dictionary: both copy the payload before writing the normalized
direction, so the caller's dict after the call (the second component of
the model) is the input itself, on every path. -/
theorem addSignal_updateSignal_preserve_input (sd ud : Dict) (sid : String) :
    (addSignal sd).2 = sd ∧ (updateSignal sid ud).2 = ud := by
  constructor
  · unfold addSignal
    repeat' split <;> try rfl
  · unfold updateSignal
    repeat' split <;> try rfl

/-- **C6.** Removing any one of the six required fields makes
`add_signal` return `None` locally, before any network call. -/
theorem addSignal_missing_field_rejects (sd : Dict) (f : String)
    (hf : f ∈ required_fields) (hmiss : sd.get f = none) :
    addSignal sd = (.reject, sd) := by
  have hall : required_fields.all (fun g => (sd.get g).isSome) = false := by
    rw [List.all_eq_false]
    exact ⟨f, hf, by simp [hmiss]⟩
  simp [addSignal, hall]

/-- Witness for C6: a dict missing `direction` is rejected. -/
theorem addSignal_missing_field_rejects_w :
    addSignal [("entryTime", .str "2024-01-15T10:30:00Z")] =
      (.reject, [("entryTime", .str "2024-01-15T10:30:00Z")]) :=
  addSignal_missing_field_rejects _ "direction" (by decide) (by decide)

/-- **C5.** A `lotSize` below `0.1` makes `add_signal` (and
`update_signal` when the key is present) return `None` locally; a
`lotSize` of at least `0.1` passes the lot-size guard.  The quantified
hypothesis on `direction` keeps the input inside the typed fragment
(a numeric direction would raise in the source before the lot-size
guard runs). -/
theorem lotSize_below_min_rejects (sd ud : Dict) (sid : String) (q : ℚ) :
    (sd.get "lotSize" = some (.num q) → q < lotMin →
      (∀ r : ℚ, sd.get "direction" ≠ some (.num r)) →
      (addSignal sd).1 = .reject) ∧
    (ud.get "lotSize" = some (.num q) → q < lotMin →
      (∀ r : ℚ, ud.get "direction" ≠ some (.num r)) →
      (updateSignal sid ud).1 = .reject) ∧
    (∀ d : Dict, d.get "lotSize" = some (.num q) → lotMin ≤ q →
      lotStep d = .okL) := by
  have hlot : ∀ d : Dict, d.get "lotSize" = some (.num q) → q < lotMin →
      lotStep d = .rejectL := by
    intro d hd hq
    simp [lotStep, hd, hq]
  refine ⟨?_, ?_, ?_⟩
  · intro hq hlt hdir
    unfold addSignal
    split
    · rfl
    · rcases hd : sd.get "direction" with _ | dv
      · simp [hd]
      · rcases dv with _ | d | r
        · simp [hd, Value.truthy]
        · simp only [hd]
          split
          · rfl
          · split
            · rfl
            · rw [hlot sd hq hlt]
        · exact absurd hd (hdir r)
  · intro hq hlt hdir
    unfold updateSignal
    split
    · rfl
    · have hnoterr : updateDirStep ud ≠ .errD := by
        unfold updateDirStep
        rcases hd : ud.get "direction" with _ | dv
        · simp
        · rcases dv with _ | d | r
          · simp [Value.truthy]
          · dsimp only
            split
            · simp
            · split <;> simp
          · exact absurd hd (hdir r)
      split
      · rfl
      · rename_i herr; exact absurd herr hnoterr
      · rw [hlot ud hq hlt]
  · intro d hd hge
    simp [lotStep, hd, not_lt.mpr hge]

/-- Every request `add_signal` hands to `_make_request` stems from a
string direction that passed validation, and its body is the copied
input with the uppercased direction written in. -/
theorem addSignal_send_shape (sd : Dict) (m e : String) (b : Dict)
    (h : (addSignal sd).1 = .send m e b) :
    ∃ d, sd.get "direction" = some (.str d) ∧ directionAllowed d = true ∧
      b = (Dict.copy sd).set "direction" (.str (pyUpper (pyLower d))) := by
  unfold addSignal at h
  split at h
  · simp at h
  · split at h
    · simp at h
    · split at h
      · simp at h
      · split at h
        · rename_i d hd h2
          split at h
          · simp at h
          · split at h
            · simp at h
            · simp at h
            · refine ⟨d, ?_, not_not.mp (by assumption), ?_⟩
              · assumption
              · simp only [Prod.fst] at h
                exact (CallOutcome.send.injEq .. |>.mp h.symm).2.2
        · simp at h

/-- Every request `update_signal` hands to `_make_request` is either the
copied payload unchanged (no direction key) or the copied payload with a
validated direction uppercased. -/
theorem updateSignal_send_shape (sid : String) (ud : Dict) (m e : String)
    (b : Dict) (h : (updateSignal sid ud).1 = .send m e b) :
    (ud.get "direction" = none ∧ b = Dict.copy ud) ∨
    ∃ d, ud.get "direction" = some (.str d) ∧ directionAllowed d = true ∧
      b = (Dict.copy ud).set "direction" (.str (pyUpper (pyLower d))) := by
  unfold updateSignal at h
  split at h
  · simp at h
  · split at h
    · simp at h
    · simp at h
    · rename_i api hstep
      have hb : b = api := by
        split at h
        · simp at h
        · simp at h
        · simp only [Prod.fst] at h
          exact (CallOutcome.send.injEq .. |>.mp h.symm).2.2
      subst hb
      unfold updateDirStep at hstep
      split at hstep
      · left; exact ⟨by assumption, (DirStep.okD.injEq .. |>.mp hstep.symm)⟩
      · split at hstep
        · simp at hstep
        · split at hstep
          · rename_i d hd h2
            split at hstep
            · simp at hstep
            · right
              refine ⟨d, hd, not_not.mp (by assumption), ?_⟩
              exact (DirStep.okD.injEq .. |>.mp hstep.symm)
          · simp at hstep

/-- **C3.** Direction normalization: every body handed to
`_make_request` by `add_signal` — and by `update_signal` when the
partial payload holds a direction — carries direction exactly `"LONG"`
or `"SHORT"`; a direction string whose (ASCII) lowercasing is neither
`long` nor `short` (including the empty string) makes both methods
return `None` locally, with no network call. -/
theorem direction_normalized (sd ud : Dict) (sid s : String) :
    (∀ m e b, (addSignal sd).1 = .send m e b →
      b.get "direction" = some (.str "LONG") ∨
      b.get "direction" = some (.str "SHORT")) ∧
    (sd.get "direction" = some (.str s) → directionAllowed s = false →
      (addSignal sd).1 = .reject) ∧
    (∀ m e b, (updateSignal sid ud).1 = .send m e b →
      ud.get "direction" ≠ none →
      b.get "direction" = some (.str "LONG") ∨
      b.get "direction" = some (.str "SHORT")) ∧
    (ud.get "direction" = some (.str s) → directionAllowed s = false →
      (updateSignal sid ud).1 = .reject) := by
  refine ⟨?_, ?_, ?_, ?_⟩
  · intro m e b h
    obtain ⟨d, _, hall, rfl⟩ := addSignal_send_shape sd m e b h
    rcases allowed_upper hall with hu | hu
    · left; rw [get_set_self, hu]
    · right; rw [get_set_self, hu]
  · intro hd hall
    unfold addSignal
    split
    · rfl
    · simp only [hd]
      split
      · rfl
      · split
        · rfl
        · rename_i h2
          exact absurd (not_not.mp h2) (by simp [hall])
  · intro m e b h hpres
    rcases updateSignal_send_shape sid ud m e b h with ⟨hnone, _⟩ |
      ⟨d, _, hall, rfl⟩
    · exact absurd hnone hpres
    · rcases allowed_upper hall with hu | hu
      · left; rw [get_set_self, hu]
      · right; rw [get_set_self, hu]
  · intro hd hall
    have hstep : updateDirStep ud = .rejectD := by
      unfold updateDirStep
      simp only [hd]
      split
      · rfl
      · split
        · rfl
        · rename_i h2
          exact absurd (not_not.mp h2) (by simp [hall])
    unfold updateSignal
    split
    · rfl
    · rw [hstep]

/-- Witness for C3: `LoNg` is transmitted as `LONG`; `buy` is rejected
locally by both methods. -/
theorem direction_normalized_w :
    (exSignalSent.get "direction" = some (.str "LONG") ∨
     exSignalSent.get "direction" = some (.str "SHORT")) ∧
    (addSignal (exSignal.set "direction" (.str "buy"))).1 = .reject ∧
    (updateSignal "abc123" [("direction", .str "buy")]).1 = .reject :=
  ⟨(direction_normalized exSignal [] "" "x").1 "POST" "/api/signals"
      exSignalSent (by decide),
   (direction_normalized (exSignal.set "direction" (.str "buy")) [] "" "buy").2.1
      (by decide) (by decide),
   (direction_normalized [] [("direction", .str "buy")] "abc123" "buy").2.2.2
      (by decide) (by decide)⟩

/-- A bulk entry with the four required fields and a validated string
direction is accepted, and the loop stores the uppercased direction into
the entry itself. -/
theorem processEntry_ok {s : Dict} {d : String}
    (hf : bulk_required_fields.all (fun f => (s.get f).isSome) = true)
    (hd : s.get "direction" = some (.str d))
    (hall : directionAllowed d = true) :
    processEntry s = .okE (entryMutated s) := by
  unfold processEntry entryMutated
  rw [hd]
  simp [hf, Value.truthy, allowed_truthy hall, hall]

/-- A bulk entry with a missing required field, or whose direction does
not lowercase to `long`/`short`, fails validation (stated inside the
typed fragment: the direction value is not a number). -/
theorem processEntry_fail {s : Dict}
    (hnum : ∀ r : ℚ, s.get "direction" ≠ some (.num r))
    (hbad : (∃ f ∈ bulk_required_fields, s.get f = none) ∨
      (∀ d : String, s.get "direction" = some (.str d) →
        directionAllowed d = false)) :
    processEntry s = .failE := by
  unfold processEntry
  rcases hbad with ⟨f, hf, hnone⟩ | hdir
  · have hfalse : bulk_required_fields.all (fun g => (s.get g).isSome) = false :=
      List.all_eq_false.mpr ⟨f, hf, by simp [hnone]⟩
    simp [hfalse]
  · split
    · rfl
    · rcases hg : s.get "direction" with _ | dv
      · simp [hg]
      · rcases dv with _ | d | r
        · simp [hg, Value.truthy]
        · simp only [hg]
          split
          · rfl
          · simp [hdir d hg]
        · exact absurd hg (hnum r)

/-- A non-numeric direction value never raises in the bulk loop. -/
theorem processEntry_ne_err {s : Dict}
    (hnum : ∀ r : ℚ, s.get "direction" ≠ some (.num r)) :
    processEntry s ≠ .errE := by
  unfold processEntry
  split
  · simp
  · rcases hg : s.get "direction" with _ | dv
    · simp [hg]
    · rcases dv with _ | d | r
      · simp [hg, Value.truthy]
      · simp only [hg]
        split
        · simp
        · split <;> simp
      · exact absurd hg (hnum r)

/-- When every entry validates, the loop accepts and the caller's list
consists of the mutated entries. -/
theorem bulkLoop_allOk {signals : List Dict}
    (h : ∀ s ∈ signals, processEntry s = .okE (entryMutated s)) :
    bulkLoop signals = .allOk (signals.map entryMutated) := by
  induction signals with
  | nil => rfl
  | cons s rest ih =>
    have hs := h s (by simp)
    have ihh := ih (fun t ht => h t (by simp [ht]))
    simp [bulkLoop, hs, ihh]

/-- When a valid prefix is followed by a failing entry, the loop stops
there: the prefix is mutated, the failing entry and the tail are not. -/
theorem bulkLoop_fail_partway {pre post : List Dict} {bad : Dict}
    (hpre : ∀ s ∈ pre, processEntry s = .okE (entryMutated s))
    (hbad : processEntry bad = .failE) :
    bulkLoop (pre ++ bad :: post) =
      .failedL (pre.map entryMutated ++ bad :: post) := by
  induction pre with
  | nil => simp [bulkLoop, hbad]
  | cons s rest ih =>
    have hs := hpre s (by simp)
    have ihh := ih (fun t ht => hpre t (by simp [ht]))
    simp [bulkLoop, hs, ihh]

/-- If no entry raises and some entry fails, the loop fails. -/
theorem bulkLoop_fail_of_mem {signals : List Dict}
    (hne : ∀ s ∈ signals, processEntry s ≠ .errE)
    (hex : ∃ s ∈ signals, processEntry s = .failE) :
    ∃ l, bulkLoop signals = .failedL l := by
  induction signals with
  | nil => simp at hex
  | cons s rest ih =>
    rcases hs : processEntry s with m | _ | _
    · have hrest : ∃ t ∈ rest, processEntry t = EntryStep.failE := by
        rcases hex with ⟨t, ht, hfail⟩
        rcases List.mem_cons.mp ht with rfl | htr
        · rw [hs] at hfail; cases hfail
        · exact ⟨t, htr, hfail⟩
      obtain ⟨l, hl⟩ := ih (fun t ht => hne t (by simp [ht])) hrest
      exact ⟨m :: l, by simp [bulkLoop, hs, hl]⟩
    · exact ⟨s :: rest, by simp [bulkLoop, hs]⟩
    · exact absurd hs (hne s (by simp))

/-- **C4.** `add_bulk_signals` rejects locally with no network call on an
empty `bot_id`, an empty list, a missing required field, or an invalid
direction in any entry; when every entry is valid it hands exactly one
POST body `{botId, signals}` to `_make_request`, with every direction
upper-cased. -/
theorem bulk_signals_contract (bot_id : String) (signals : List Dict) :
    addBulkSignals "" signals = (.rejectB, signals) ∧
    addBulkSignals bot_id [] = (.rejectB, []) ∧
    ((∀ s ∈ signals, ∀ r : ℚ, s.get "direction" ≠ some (.num r)) →
      (∃ s ∈ signals, (∃ f ∈ bulk_required_fields, s.get f = none) ∨
        (∀ d : String, s.get "direction" = some (.str d) →
          directionAllowed d = false)) →
      (addBulkSignals bot_id signals).1 = .rejectB) ∧
    (bot_id ≠ "" → signals ≠ [] →
      (∀ s ∈ signals,
        bulk_required_fields.all (fun f => (s.get f).isSome) = true ∧
        ∃ d, s.get "direction" = some (.str d) ∧
          directionAllowed d = true) →
      addBulkSignals bot_id signals =
        (.sendB ⟨bot_id, signals.map entryMutated⟩,
         signals.map entryMutated) ∧
      ∀ m ∈ signals.map entryMutated,
        m.get "direction" = some (.str "LONG") ∨
        m.get "direction" = some (.str "SHORT")) := by
  refine ⟨by simp [addBulkSignals], ?_, ?_, ?_⟩
  · unfold addBulkSignals
    split
    · rfl
    · simp
  · intro hnum hex
    unfold addBulkSignals
    split
    · rfl
    · split
      · rfl
      · obtain ⟨l, hl⟩ := bulkLoop_fail_of_mem
          (fun s hs => processEntry_ne_err (hnum s hs))
          (by
            obtain ⟨s, hs, hbad⟩ := hex
            exact ⟨s, hs, processEntry_fail (hnum s hs) hbad⟩)
        simp [hl]
  · intro hb hne hval
    have hloop : bulkLoop signals = .allOk (signals.map entryMutated) :=
      bulkLoop_allOk (fun s hs => by
        obtain ⟨d, hd, hall⟩ := (hval s hs).2
        exact processEntry_ok (hval s hs).1 hd hall)
    constructor
    · unfold addBulkSignals
      rw [if_neg hb, if_neg (by simpa using hne), hloop]
    · intro m hm
      obtain ⟨s, hs, rfl⟩ := List.mem_map.mp hm
      obtain ⟨d, hd, hall⟩ := (hval s hs).2
      unfold entryMutated
      rw [hd]
      rcases allowed_upper hall with hu | hu
      · left; rw [get_set_self, hu]
      · right; rw [get_set_self, hu]

/-- Witness for C4: a batch with a bad entry is rejected whole; a valid
batch is sent with the direction upper-cased. -/
theorem bulk_signals_contract_w :
    (addBulkSignals "bot1" [exBulkEntry, exBulkBad]).1 = .rejectB ∧
    addBulkSignals "bot1" [exBulkEntry] =
      (.sendB ⟨"bot1", [exBulkEntry].map entryMutated⟩,
       [exBulkEntry].map entryMutated) := by
  constructor
  · exact (bulk_signals_contract "bot1" [exBulkEntry, exBulkBad]).2.2.1
      (by
        intro s hs r h
        rcases List.mem_cons.mp hs with rfl | hs2
        · rw [(by decide : exBulkEntry.get "direction" =
            some (Value.str "Short"))] at h
          simp at h
        · rcases List.mem_cons.mp hs2 with rfl | hs3
          · rw [(by decide : exBulkBad.get "direction" =
              some (Value.str "long"))] at h
            simp at h
          · simp at hs3)
      ⟨exBulkBad, by simp, .inl ⟨"pairName", by decide, by decide⟩⟩
  · exact ((bulk_signals_contract "bot1" [exBulkEntry]).2.2.2
      (by decide) (by simp)
      (by
        intro s hs
        rcases List.mem_cons.mp hs with rfl | hs2
        · exact ⟨by decide, "Short", by decide, by decide⟩
        · simp at hs2)).1

/-- **C9.** The bulk loop uppercases each validated entry's direction in
the caller's own dictionaries, so when a later entry fails and the batch
is rejected with no network call, every entry before the failing one is
already mutated while the failing entry and the tail are untouched. -/
theorem bulk_mutates_earlier_entries (bot_id : String)
    (pre post : List Dict) (bad : Dict) (hbot : bot_id ≠ "")
    (hpre : ∀ s ∈ pre,
      bulk_required_fields.all (fun f => (s.get f).isSome) = true ∧
      ∃ d, s.get "direction" = some (.str d) ∧ directionAllowed d = true)
    (hbadnum : ∀ r : ℚ, bad.get "direction" ≠ some (.num r))
    (hbad : (∃ f ∈ bulk_required_fields, bad.get f = none) ∨
      (∀ d : String, bad.get "direction" = some (.str d) →
        directionAllowed d = false)) :
    addBulkSignals bot_id (pre ++ bad :: post) =
      (.rejectB, pre.map entryMutated ++ bad :: post) := by
  have hloop : bulkLoop (pre ++ bad :: post) =
      .failedL (pre.map entryMutated ++ bad :: post) :=
    bulkLoop_fail_partway
      (fun s hs => by
        obtain ⟨d, hd, hall⟩ := (hpre s hs).2
        exact processEntry_ok (hpre s hs).1 hd hall)
      (processEntry_fail hbadnum hbad)
  unfold addBulkSignals
  rw [if_neg hbot, if_neg (by simp), hloop]

/-- Witness for C9: with a valid first entry and a second entry missing
`pairName`, the batch is rejected and the first entry's direction is
already `SHORT` in the caller's list. -/
theorem bulk_mutates_earlier_entries_w :
    addBulkSignals "bot1" [exBulkEntry, exBulkBad] =
      (.rejectB, [exBulkEntry].map entryMutated ++ [exBulkBad]) :=
  bulk_mutates_earlier_entries "bot1" [exBulkEntry] [] exBulkBad
    (by decide)
    (by
      intro s hs
      rcases List.mem_cons.mp hs with rfl | hs2
      · exact ⟨by decide, "Short", by decide, by decide⟩
      · simp at hs2)
    (by
      intro r h
      rw [(by decide : exBulkBad.get "direction" =
        some (Value.str "long"))] at h
      simp at h)
    (.inl ⟨"pairName", by decide, by decide⟩)

/-- **C2.** `_ensure_authenticated` returns success immediately, with no
login call, exactly when the cached token is truthy and its expiry lies
strictly more than 5 minutes after `now`; in every other case it performs
exactly one `_authenticate` call and returns its result, so a token is
reused only while `now + 5min < expires_at`. -/
theorem ensure_authenticated_gate (st : SDKState) (now : Int)
    (o : LoginOutcome) :
    (tokenValid st now = true ↔
      tokenTruthy st.token = true ∧
      ∃ e, st.token_expires_at = some e ∧ now + 300 < e) ∧
    (tokenValid st now = true →
      ensureAuthenticated st now o = (true, st, none, 0)) ∧
    (tokenValid st now = false →
      ensureAuthenticated st now o =
        ((authenticate st now o).1, (authenticate st now o).2.1,
         (authenticate st now o).2.2, 1)) := by
  refine ⟨?_, ?_, ?_⟩
  · unfold tokenValid
    rcases st.token_expires_at with _ | e
    · simp
    · simp [Bool.and_eq_true]
  · intro h
    simp [ensureAuthenticated, h]
  · intro h
    unfold ensureAuthenticated
    rcases ha : authenticate st now o with ⟨b, st', f⟩
    simp [h, ha]

/-- Witness for C2: a fresh token is reused with zero logins; an empty
state triggers exactly one (here failing) login. -/
theorem ensure_authenticated_gate_w :
    ensureAuthenticated ⟨some "tok", some 1000⟩ 0 .netErr =
      (true, ⟨some "tok", some 1000⟩, none, 0) ∧
    ensureAuthenticated ⟨none, none⟩ 0 .netErr =
      (false, ⟨none, none⟩, none, 1) := by
  constructor
  · exact (ensure_authenticated_gate ⟨some "tok", some 1000⟩ 0 .netErr).2.1
      (by decide)
  · rw [(ensure_authenticated_gate ⟨none, none⟩ 0 .netErr).2.2 (by decide)]
    rfl

/-- **C7.** `_authenticate` is total (every failure path returns `false`
instead of raising): it fails on a network error, a non-200 status, an
unparsable body, and a missing or empty token; on success the expiry is
exactly `now` plus 7 days (`604800` seconds, a fixed policy independent
of the response) and `{token, expires_at}` is written to the token file;
nothing is written on failure. -/
theorem authenticate_contract (st : SDKState) (now : Int)
    (o : LoginOutcome) :
    ((authenticate st now o).1 = true ↔
      ∃ b t, o = .resp 200 (some b) ∧ b.token = some t ∧ t ≠ "") ∧
    ((authenticate st now o).1 = true →
      (authenticate st now o).2.1.token_expires_at = some (now + 604800) ∧
      (authenticate st now o).2.2 =
        some ⟨(authenticate st now o).2.1.token, some (now + 604800)⟩) ∧
    ((authenticate st now o).1 = false →
      (authenticate st now o).2.2 = none) := by
  rcases o with _ | ⟨status, body⟩
  · simp [authenticate]
  · by_cases hs : status = 200
    · subst hs
      rcases body with _ | b
      · simp [authenticate]
      · rcases hb : b.token with _ | t
        · simp [authenticate, tokenTruthy, hb]
        · by_cases ht : t = ""
          · subst ht
            simp [authenticate, tokenTruthy, hb]
          · simp [authenticate, tokenTruthy, hb, ht]
    · simp [authenticate, hs]

/-- Witness for C7: a successful login stamps `now + 7 days`; a network
error writes no file. -/
theorem authenticate_contract_w :
    (authenticate ⟨none, none⟩ 0
        (.resp 200 (some ⟨some "tok"⟩))).2.1.token_expires_at =
      some 604800 ∧
    (authenticate ⟨none, none⟩ 0 .netErr).2.2 = none := by
  constructor
  · have h := (authenticate_contract ⟨none, none⟩ 0
      (.resp 200 (some ⟨some "tok"⟩))).2.1 (by decide)
    simpa using h.1
  · exact (authenticate_contract ⟨none, none⟩ 0 .netErr).2.2 (by decide)

/-- **C8.** Loading the token file at construction never raises, and
every missing, unreadable/truncated/unparsable, or stale file (falsy or
malformed `expires_at`, or an expiry not strictly more than 5 minutes in
the future) leaves the client with no cached token. -/
theorem load_token_clears (content : FileContent) (now : Int)
    (h : content = .missing ∨ content = .unreadable ∨
      (∃ tok, content = .jsonData tok .falsy) ∨
      (∃ tok, content = .jsonData tok .badFormat) ∨
      (∃ tok e, content = .jsonData tok (.good e) ∧ e ≤ now + 300)) :
    loadToken content now = ⟨none, none⟩ := by
  rcases h with rfl | rfl | ⟨tok, rfl⟩ | ⟨tok, rfl⟩ | ⟨tok, e, rfl, he⟩
  · rfl
  · rfl
  · rfl
  · rfl
  · simp [loadToken, not_lt.mpr he]

/-- Witness for C8: an unparsable file and an expiry exactly 5 minutes
ahead both leave the client unauthenticated. -/
theorem load_token_clears_w :
    loadToken .unreadable 0 = ⟨none, none⟩ ∧
    loadToken (.jsonData (some "tok") (.good 300)) 0 = ⟨none, none⟩ :=
  ⟨load_token_clears .unreadable 0 (.inr (.inl rfl)),
   load_token_clears (.jsonData (some "tok") (.good 300)) 0
     (.inr (.inr (.inr (.inr ⟨some "tok", 300, rfl, by decide⟩))))⟩

/-- A cleared state never passes the cached-token guard, so the 401 path
always performs exactly one login call. -/
theorem ensureAuthenticated_cleared_logins (now : Int) (o : LoginOutcome) :
    (ensureAuthenticated ⟨none, none⟩ now o).2.2.2 = 1 := by
  unfold ensureAuthenticated
  rcases ha : authenticate ⟨none, none⟩ now o with ⟨b, st', f⟩
  simp [tokenValid, tokenTruthy, ha]

/-- `_make_request` when the initial authentication fails: no HTTP call. -/
theorem makeRequest_eq_of_authfail {st : SDKState} {now : Int}
    {env : ReqEnv} {st1 : SDKState} {f1 : Option TokenFile} {n1 : Nat}
    (h1 : ensureAuthenticated st now env.login1 = (false, st1, f1, n1)) :
    makeRequest st now env = ⟨none, st1, [], n1⟩ := by
  unfold makeRequest
  rw [h1]
  rfl

/-- `_make_request` when the first API call raises: one attempt, no
retry. -/
theorem makeRequest_eq_of_netErr1 {st : SDKState} {now : Int}
    {env : ReqEnv} {st1 : SDKState} {f1 : Option TokenFile} {n1 : Nat}
    (h1 : ensureAuthenticated st now env.login1 = (true, st1, f1, n1))
    (ha : env.api1 = .netErr) :
    makeRequest st now env = ⟨none, st1, [st1.token], n1⟩ := by
  unfold makeRequest
  rw [h1, ha]
  rfl

/-- `_make_request` on a first 2xx response: its body is returned after
one attempt. -/
theorem makeRequest_eq_of_2xx {st : SDKState} {now : Int} {env : ReqEnv}
    {st1 : SDKState} {f1 : Option TokenFile} {n1 : Nat} {s : Nat}
    {b : Option Dict}
    (h1 : ensureAuthenticated st now env.login1 = (true, st1, f1, n1))
    (ha : env.api1 = .resp s b) (hs : s = 200 ∨ s = 201) :
    makeRequest st now env = ⟨b, st1, [st1.token], n1⟩ := by
  unfold makeRequest
  rw [h1, ha]
  simp [hs]

/-- `_make_request` on a first response that is neither 2xx nor 401:
failure after one attempt, no retry. -/
theorem makeRequest_eq_of_other {st : SDKState} {now : Int} {env : ReqEnv}
    {st1 : SDKState} {f1 : Option TokenFile} {n1 : Nat} {s : Nat}
    {b : Option Dict}
    (h1 : ensureAuthenticated st now env.login1 = (true, st1, f1, n1))
    (ha : env.api1 = .resp s b) (hs2 : ¬ (s = 200 ∨ s = 201))
    (hs4 : s ≠ 401) :
    makeRequest st now env = ⟨none, st1, [st1.token], n1⟩ := by
  unfold makeRequest
  rw [h1, ha]
  simp [hs2, hs4]

/-- `_make_request` on a first 401 when the re-authentication fails: no
retry attempt, failure. -/
theorem makeRequest_eq_of_401_authfail {st : SDKState} {now : Int}
    {env : ReqEnv} {st1 st2 : SDKState} {f1 f2 : Option TokenFile}
    {n1 n2 : Nat} {b : Option Dict}
    (h1 : ensureAuthenticated st now env.login1 = (true, st1, f1, n1))
    (ha : env.api1 = .resp 401 b)
    (h2 : ensureAuthenticated ⟨none, none⟩ now env.login2 =
      (false, st2, f2, n2)) :
    makeRequest st now env = ⟨none, st2, [st1.token], n1 + n2⟩ := by
  unfold makeRequest
  rw [h1, ha]
  simp [h2]

/-- `_make_request` on a first 401 when the retried call raises. -/
theorem makeRequest_eq_of_401_netErr2 {st : SDKState} {now : Int}
    {env : ReqEnv} {st1 st2 : SDKState} {f1 f2 : Option TokenFile}
    {n1 n2 : Nat} {b : Option Dict}
    (h1 : ensureAuthenticated st now env.login1 = (true, st1, f1, n1))
    (ha : env.api1 = .resp 401 b)
    (h2 : ensureAuthenticated ⟨none, none⟩ now env.login2 =
      (true, st2, f2, n2))
    (ha2 : env.api2 = .netErr) :
    makeRequest st now env =
      ⟨none, st2, [st1.token, st2.token], n1 + n2⟩ := by
  unfold makeRequest
  rw [h1, ha]
  simp [h2, ha2]

/-- `_make_request` on a first 401 with a successful re-authentication
and a second response: the retry's body is returned iff the retry is
2xx; either way exactly two attempts happen. -/
theorem makeRequest_eq_of_401_resp2 {st : SDKState} {now : Int}
    {env : ReqEnv} {st1 st2 : SDKState} {f1 f2 : Option TokenFile}
    {n1 n2 : Nat} {b b2 : Option Dict} {s2 : Nat}
    (h1 : ensureAuthenticated st now env.login1 = (true, st1, f1, n1))
    (ha : env.api1 = .resp 401 b)
    (h2 : ensureAuthenticated ⟨none, none⟩ now env.login2 =
      (true, st2, f2, n2))
    (ha2 : env.api2 = .resp s2 b2) :
    makeRequest st now env =
      ⟨if s2 = 200 ∨ s2 = 201 then b2 else none, st2,
       [st1.token, st2.token], n1 + n2⟩ := by
  unfold makeRequest
  rw [h1, ha]
  by_cases hs2 : s2 = 200 ∨ s2 = 201
  · simp [h2, ha2, hs2]
  · simp [h2, ha2, hs2]

/-- Witness for C5: `lotSize = 0.05` is rejected by both methods and
`lotSize = 1` passes the guard. -/
theorem lotSize_below_min_rejects_w :
    (addSignal [("entryTime", .str "t"), ("entryPrice", .num 50000),
        ("direction", .str "long"), ("userId", .str "u"),
        ("lotSize", .num (mkRat 1 20)), ("pairName", .str "BTC/USDT")]).1 =
      .reject ∧
    (updateSignal "id1" [("lotSize", .num (mkRat 1 20))]).1 = .reject ∧
    lotStep [("lotSize", .num 1)] = .okL := by
  refine ⟨?_, ?_, ?_⟩
  · exact (lotSize_below_min_rejects _ [] "" (mkRat 1 20)).1 (by decide)
      (by decide)
      (by intro r h
          rw [(by decide :
            Dict.get [("entryTime", Value.str "t"),
              ("entryPrice", Value.num 50000),
              ("direction", Value.str "long"), ("userId", Value.str "u"),
              ("lotSize", Value.num (mkRat 1 20)),
              ("pairName", Value.str "BTC/USDT")] "direction" =
              some (Value.str "long"))] at h
          simp at h)
  · exact (lotSize_below_min_rejects [] _ "id1" (mkRat 1 20)).2.1 (by decide)
      (by decide)
      (by intro r h
          rw [(by decide :
            Dict.get [("lotSize", Value.num (mkRat 1 20))] "direction" =
              none)] at h
          simp at h)
  · exact (lotSize_below_min_rejects [] [] "" 1).2.2 _ (by decide) (by decide)

/-- **C1.** The retry contract of `_make_request`: at most two API
attempts ever happen, and a second attempt happens only after a first
response with status 401.  A first 401 clears the in-memory token (the
re-authentication runs from the cleared state `⟨none, none⟩`), performs
exactly one further login call and, when that login succeeds, retries
exactly once carrying the new token, reporting failure when the retry is
not 2xx or raises; when the re-login fails there is no retry.  Any other
first status and any network error produce no retry and report
failure. -/
theorem make_request_retry (st : SDKState) (now : Int) (env : ReqEnv) :
    (makeRequest st now env).apiTokens.length ≤ 2 ∧
    ((makeRequest st now env).apiTokens.length = 2 →
      ∃ b, env.api1 = .resp 401 b) ∧
    (∀ b, (ensureAuthenticated st now env.login1).1 = true →
      env.api1 = .resp 401 b →
      (makeRequest st now env).logins =
        (ensureAuthenticated st now env.login1).2.2.2 + 1 ∧
      ((ensureAuthenticated ⟨none, none⟩ now env.login2).1 = true →
        (makeRequest st now env).apiTokens =
          [(ensureAuthenticated st now env.login1).2.1.token,
           (ensureAuthenticated ⟨none, none⟩ now env.login2).2.1.token] ∧
        (∀ s2 b2, env.api2 = .resp s2 b2 → s2 ≠ 200 → s2 ≠ 201 →
          (makeRequest st now env).result = none) ∧
        (env.api2 = .netErr → (makeRequest st now env).result = none)) ∧
      ((ensureAuthenticated ⟨none, none⟩ now env.login2).1 = false →
        (makeRequest st now env).apiTokens.length = 1 ∧
        (makeRequest st now env).result = none)) ∧
    (∀ s b, env.api1 = .resp s b → s ≠ 200 → s ≠ 201 → s ≠ 401 →
      (makeRequest st now env).apiTokens.length ≤ 1 ∧
      (makeRequest st now env).result = none) ∧
    (env.api1 = .netErr →
      (makeRequest st now env).apiTokens.length ≤ 1 ∧
      (makeRequest st now env).result = none) := by
  rcases h1 : ensureAuthenticated st now env.login1 with ⟨ok1, st1, f1, n1⟩
  cases ok1 with
  | false =>
    have hmr := makeRequest_eq_of_authfail h1
    refine ⟨?_, ?_, ?_, ?_, ?_⟩
    · simp [hmr]
    · simp [hmr]
    · intro b0 hok h401
      simp at hok
    · intro s' b' ha' h200 h201 h401
      simp [hmr]
    · intro hne
      simp [hmr]
  | true =>
    rcases ha : env.api1 with _ | ⟨s, b⟩
    · have hmr := makeRequest_eq_of_netErr1 h1 ha
      refine ⟨?_, ?_, ?_, ?_, ?_⟩
      · simp [hmr]
      · simp [hmr]
      · intro b0 hok h401
        simp at h401
      · intro s' b' ha' h200 h201 h401
        simp at ha'
      · intro hne
        simp [hmr]
    · by_cases hs2 : s = 200 ∨ s = 201
      · have hmr := makeRequest_eq_of_2xx h1 ha hs2
        refine ⟨?_, ?_, ?_, ?_, ?_⟩
        · simp [hmr]
        · simp [hmr]
        · intro b0 hok h401
          injection h401 with hseq hbeq
          subst hseq
          simp at hs2
        · intro s' b' ha' h200 h201 h401
          injection ha' with hseq hbeq
          subst hseq
          rcases hs2 with rfl | rfl
          · exact absurd rfl h200
          · exact absurd rfl h201
        · intro hne
          simp at hne
      · by_cases hs4 : s = 401
        · subst hs4
          rcases h2 : ensureAuthenticated ⟨none, none⟩ now env.login2 with
            ⟨ok2, st2, f2, n2⟩
          have hn2 : n2 = 1 := by
            have hc := ensureAuthenticated_cleared_logins now env.login2
            rw [h2] at hc
            exact hc
          cases ok2 with
          | false =>
            have hmr := makeRequest_eq_of_401_authfail h1 ha h2
            refine ⟨?_, ?_, ?_, ?_, ?_⟩
            · simp [hmr]
            · simp [hmr]
            · intro b0 hok h401
              refine ⟨?_, ?_, ?_⟩
              · rw [hmr]
                simp [hn2]
              · intro hok2
                simp at hok2
              · intro hok2
                simp [hmr]
            · intro s' b' ha' h200 h201 h401
              injection ha' with hseq hbeq
              exact absurd hseq.symm h401
            · intro hne
              simp at hne
          | true =>
            rcases ha2 : env.api2 with _ | ⟨s2, b2⟩
            · have hmr := makeRequest_eq_of_401_netErr2 h1 ha h2 ha2
              refine ⟨?_, ?_, ?_, ?_, ?_⟩
              · simp [hmr]
              · intro hlen
                exact ⟨b, rfl⟩
              · intro b0 hok h401
                refine ⟨?_, ?_, ?_⟩
                · rw [hmr]
                  simp [hn2]
                · intro hok2
                  refine ⟨?_, ?_, ?_⟩
                  · rw [hmr]
                  · intro s2' b2' ha2' h200 h201
                    simp at ha2'
                  · intro hne2
                    simp [hmr]
                · intro hok2
                  simp at hok2
              · intro s' b' ha' h200 h201 h401
                injection ha' with hseq hbeq
                exact absurd hseq.symm h401
              · intro hne
                simp at hne
            · have hmr := makeRequest_eq_of_401_resp2 h1 ha h2 ha2
              refine ⟨?_, ?_, ?_, ?_, ?_⟩
              · simp [hmr]
              · intro hlen
                exact ⟨b, rfl⟩
              · intro b0 hok h401
                refine ⟨?_, ?_, ?_⟩
                · rw [hmr]
                  simp [hn2]
                · intro hok2
                  refine ⟨?_, ?_, ?_⟩
                  · rw [hmr]
                  · intro s2' b2' ha2' h200 h201
                    injection ha2' with hs2eq hb2eq
                    subst hs2eq
                    subst hb2eq
                    rw [hmr]
                    simp [h200, h201]
                  · intro hne2
                    simp at hne2
                · intro hok2
                  simp at hok2
              · intro s' b' ha' h200 h201 h401
                injection ha' with hseq hbeq
                exact absurd hseq.symm h401
              · intro hne
                simp at hne
        · have hmr := makeRequest_eq_of_other h1 ha hs2 hs4
          refine ⟨?_, ?_, ?_, ?_, ?_⟩
          · simp [hmr]
          · simp [hmr]
          · intro b0 hok h401
            injection h401 with hseq hbeq
            exact absurd hseq hs4
          · intro s' b' ha' h200 h201 h401
            simp [hmr]
          · intro hne
            simp at hne

/-- Witness for C1: under `exEnv` the call performs two logins, two API
attempts (the second with the fresh token `t2`), and reports failure
because the retry returned 500. -/
theorem make_request_retry_w :
    (makeRequest ⟨none, none⟩ 0 exEnv).logins = 2 ∧
    (makeRequest ⟨none, none⟩ 0 exEnv).apiTokens =
      [some "t1", some "t2"] ∧
    (makeRequest ⟨none, none⟩ 0 exEnv).result = none := by
  have h := (make_request_retry ⟨none, none⟩ 0 exEnv).2.2.1 none
    (by decide) (by decide)
  refine ⟨?_, ?_, ?_⟩
  · rw [h.1]
    decide
  · exact ((h.2.1 (by decide)).1).trans (by decide)
  · exact (h.2.1 (by decide)).2.1 500 none (by decide) (by decide) (by decide)

end FinFX
